import Mathlib

/-!
Shallow embedding of the board-game engine in `dog.py` (repository
`blackhawk42/dog`).  Python integers are modelled as `Int` (or `Nat` where the
source value is always a non-negative count), Python lists as `List`, and the
mutable `Game`/`Player` objects as an explicit `GameState` record threaded
through every operation.  The logging calls of the source are modelled as a
list of structured `Event` values appended to the state.  The RNG
(`random.Random`) is modelled as a pure stream `rng : Nat → Nat` together with
a cursor `rngIdx`; `randint(1, 6)` is modelled as `1 + rng idx % 6` and
`getrandbits(1)` as `rng idx % 2`, which preserves the ranges the Python API
guarantees.  Out-of-range list indexing, which raises `IndexError` in Python,
is modelled by `Option`-returning lookups (with the raising branch mapped to a
no-op where a total function is needed); all theorems below operate under
in-bounds hypotheses matching the states the Python program can actually
reach, except where a claim is specifically about an out-of-bounds outcome.
-/

/-- The vocabulary of records the engine's event stream may carry (spec §6).
Constructors carry the behaviour-bearing fields (player id, step, place id,
message, roll value); the human-readable text around them is formatting only. -/
inductive Event where
  | seedEv (n : Int)
  | turnEv (n : Nat)
  | dieRoll (pid : Nat) (v : Nat)
  | coinFlip (pid : Nat) (b : Bool)
  | movedEv (pid : Nat) (step : Int) (placeId : Int) (msg : Option String)
  | hasLost (pid : Nat)
  | winnerEv (pid : Nat)
  | everyoneLostEv
  | totalTurnsEv (n : Nat)
  | losersEv (pids : List Nat)
  | playerStatsEv
  deriving DecidableEq, Repr

/-- The mutable per-player state of `dog.py`'s `Player` dataclass
(src/dog.py lines 12-19).  The back-reference `game` is represented by
threading `GameState` explicitly; equality in Python is by `id` alone. -/
structure PlayerState where
  id : Nat
  name : String
  currentPlace : Int
  totalPlaces : Int
  turnsToSkip : Nat
  deriving DecidableEq, Repr

/-- The mutable state of `dog.py`'s `Game` dataclass (src/dog.py lines
127-135) plus the modelled RNG stream and the log.  A `Place`'s data part is
its optional message (`places`); the effect functions of the board are passed
to the operations that consult them, mirroring how Python stores closures. -/
structure GameState where
  rng : Nat → Nat
  rngIdx : Nat
  currentPlayerOffset : Nat
  players : List PlayerState
  places : List (Option String)
  totalTurns : Nat
  events : List Event

/-- The result of a landing effect (src/dog.py lines 71-74): either the list
of (ids of) players that moved, or a single player id signalling a win. -/
inductive EffectResult where
  | moved (pids : List Nat)
  | winner (pid : Nat)
  deriving DecidableEq, Repr

/-- A landing-effect function (src/dog.py lines 81-84): receives the id of
its place and the id of the landing player. -/
abbrev EffectFn := Nat → Nat → GameState → GameState × EffectResult

/-- A persistent-effect function (src/dog.py lines 86-89): receives the id of
its place, the id of the testing (active) player and that player's roll, and
returns (ids of players moved, was the effect triggered?). -/
abbrev PEFn := Nat → Nat → Nat → GameState → GameState × List Nat × Bool

/-- The arithmetic core of `Player.move` (src/dog.py lines 21-40), acting on
`(currentPlace, totalPlaces)` for a board of length `len`.  Transcribed
branch by branch: the positive branch clamps `step` to
`(len - 1) - currentPlace` on overflow; the negative branch reassigns
`step := currentPlace` when `currentPlace + step < 0` (exactly as line 33 of
the source does) and then adds `step` to `currentPlace` and `-step` to
`totalPlaces`; `step = 0` does nothing.  Returns the new
`(currentPlace, totalPlaces)`. -/
def moveCalc (len : Nat) (cp tp step : Int) : Int × Int :=
  if step > 0 then
    let step := if cp + step ≥ (len : Int) then ((len : Int) - 1) - cp else step
    (cp + step, tp + step)
  else if step < 0 then
    let step := if cp + step < 0 then cp else step
    (cp + step, tp + (-step))
  else
    (cp, tp)

/-- Apply `f` to the player with id `pid` (Python mutates the unique object
with that id; rosters built by `newGame` have distinct ids). -/
def updatePlayer (s : GameState) (pid : Nat) (f : PlayerState → PlayerState) : GameState :=
  { s with players := s.players.map (fun p => if p.id = pid then f p else p) }

/-- The message of the place at (integer) index `cp`, used by `Player.move`'s
log line (src/dog.py lines 43-46); `none` where Python would find no message
or raise `IndexError`. -/
def messageAt (s : GameState) (cp : Int) : Option String :=
  (s.places.get? cp.toNat).getD none

/-- `Player.move` (src/dog.py lines 21-47) on the player with id `pid`:
updates `currentPlace`/`totalPlaces` via `moveCalc` and appends the `moved`
log record carrying the post-clamp step (the difference of the places), the
resulting place index and that place's message. -/
def move (s : GameState) (pid : Nat) (step : Int) : GameState :=
  match s.players.find? (fun p => p.id = pid) with
  | none => s
  | some p =>
      let r := moveCalc s.places.length p.currentPlace p.totalPlaces step
      let s' := updatePlayer s pid (fun q => { q with currentPlace := r.1, totalPlaces := r.2 })
      { s' with events := s'.events ++ [Event.movedEv pid (r.1 - p.currentPlace) r.1 (messageAt s r.1)] }

/-- `Game.d6` (src/dog.py lines 184-187): draws `randint(1, 6)` from the RNG
stream, logs the roll, returns it. -/
def d6 (s : GameState) (pid : Nat) : Nat × GameState :=
  let roll := 1 + s.rng s.rngIdx % 6
  (roll, { s with rngIdx := s.rngIdx + 1, events := s.events ++ [Event.dieRoll pid roll] })

/-- `Game.coin` (src/dog.py lines 179-182): draws `getrandbits(1)` from the
RNG stream, logs the flip, returns it. -/
def coin (s : GameState) (pid : Nat) : Bool × GameState :=
  let flip := s.rng s.rngIdx % 2 = 1
  (flip, { s with rngIdx := s.rngIdx + 1, events := s.events ++ [Event.coinFlip pid flip] })

/-- `Game._nextPlayerOffset` (src/dog.py lines 137-138) as a function of the
current offset and the roster length. -/
def nextPlayerOffset (off n : Nat) : Nat := (off + 1) % n

/-- `Game._lastPlayerOffset` (src/dog.py lines 140-141).  Python's `%` on a
possibly negative left operand is `Int.emod`; the result is cast back to the
non-negative offset. -/
def lastPlayerOffset (off n : Nat) : Nat := (((off : Int) - 1) % (n : Int)).toNat

/-- `Game._advanceCurrentPlayer` (src/dog.py lines 143-144). -/
def advanceCurrentPlayer (s : GameState) : GameState :=
  { s with currentPlayerOffset := nextPlayerOffset s.currentPlayerOffset s.players.length }

/-- `Game._rewindCurrentPlayer` (src/dog.py lines 146-147). -/
def rewindCurrentPlayer (s : GameState) : GameState :=
  { s with currentPlayerOffset := lastPlayerOffset s.currentPlayerOffset s.players.length }

/-- `Game.losePlayer` (src/dog.py lines 149-165) for the player with id
`pid`.  Python's `player == self.players[self.currentPlayerOffset]` compares
ids; `self.players.index(player)` is `findIdx` on ids; `list.pop(i)` is
`eraseIdx`.  The source emits no log record here.  An out-of-range offset
(where Python would raise `IndexError`) is modelled as a no-op. -/
def losePlayer (s : GameState) (pid : Nat) : GameState :=
  match s.players.get? s.currentPlayerOffset with
  | none => s
  | some q =>
    if q.id = pid then
      let s1 := rewindCurrentPlayer s
      { s1 with players :=
          s1.players.eraseIdx (nextPlayerOffset s1.currentPlayerOffset s1.players.length) }
    else
      let deletedOffset := s.players.findIdx (fun p => p.id = pid)
      let s1 := if s.currentPlayerOffset > deletedOffset then rewindCurrentPlayer s else s
      { s1 with players := s1.players.eraseIdx deletedOffset }

/-- `Game.getCurrentTurnPlayer` (src/dog.py lines 170-171); `none` where
Python would raise `IndexError`. -/
def getCurrentTurnPlayer (s : GameState) : Option PlayerState :=
  s.players.get? s.currentPlayerOffset

/-- First player of the test fixtures. -/
def pA : PlayerState := ⟨0, "A", 0, 0, 0⟩

/-- Second player of the test fixtures. -/
def pB : PlayerState := ⟨1, "B", 0, 0, 0⟩

/-- Third player of the test fixtures. -/
def pC : PlayerState := ⟨2, "C", 0, 0, 0⟩

/-- A concrete game state over a 49-place message-free board, as `newGame`
builds it (src/dog.py lines 257-299), with a fixed roster and offset and an
all-zero RNG stream. -/
def mkTestState (ps : List PlayerState) (off : Nat) : GameState :=
  { rng := fun _ => 0, rngIdx := 0, currentPlayerOffset := off, players := ps,
    places := List.replicate 49 none, totalTurns := 0, events := [] }

/-! ### Claims C1-C3: `Player.move` arithmetic -/

/-- **C1.** The claim states that after `move(step)` the player's
`currentPlace` always satisfies `0 ≤ currentPlace < len(places)`.  The code
violates it: with board length 49 (the shipped board), `currentPlace = 25`
and `step = -26`, the underflow branch of `Player.move` reassigns
`step := currentPlace = 25` (src/dog.py line 33) instead of clamping to
`-25`, so the player ends at place `50 ≥ 49`, outside the board. -/
theorem c1_move_bounds_violated :
    (moveCalc 49 25 0 (-26)).1 = 50 ∧ ¬ ((moveCalc 49 25 0 (-26)).1 < 49) := by
  constructor <;> decide

/-- **C2.** The claim states that an underflowing negative move is clamped so
the player ends at `currentPlace = 0`.  The code instead doubles
`currentPlace`: from `currentPlace = 3` with `step = -5` the underflow branch
sets `step := 3` and the player ends at place `6`, not `0`. -/
theorem c2_underflow_clamp_violated :
    (moveCalc 49 3 10 (-5)).1 = 6 ∧ (moveCalc 49 3 10 (-5)).1 ≠ 0 := by
  constructor <;> decide

/-- **C3.** The claim states that `totalPlaces` never decreases and each call
adds the absolute value of the post-clamp step.  In the underflow branch the
code adds `-step = -currentPlace ≤ 0` to `totalPlaces`: from
`currentPlace = 3`, `totalPlaces = 10`, `step = -5`, `totalPlaces` drops to
`7 < 10`. -/
theorem c3_totalPlaces_decreases :
    (moveCalc 49 3 10 (-5)).2 = 7 ∧ (moveCalc 49 3 10 (-5)).2 < 10 := by
  constructor <;> decide

/-! ### Claims C4-C5: elimination and offset bookkeeping -/

theorem lastPlayerOffset_of_pos (off n : Nat) (h1 : 1 ≤ off) (h2 : off ≤ n) :
    lastPlayerOffset off n = off - 1 := by
  unfold lastPlayerOffset
  rw [Int.emod_eq_of_lt (by omega) (by omega)]
  omega

theorem lastPlayerOffset_zero (n : Nat) (h : 1 ≤ n) :
    lastPlayerOffset 0 n = n - 1 := by
  unfold lastPlayerOffset
  have h0 : ((0 : Nat) : Int) - 1 = -1 := by norm_num
  rw [h0]
  have h3 := Int.add_mul_emod_self_left (-1) (n : Int) 1
  have h4 : (-1 : Int) + (n : Int) * 1 = (n : Int) - 1 := by ring
  rw [h4] at h3
  rw [← h3, Int.emod_eq_of_lt (by omega) (by omega)]
  omega

/-- `losePlayer` on the player the offset points at, with `offset ≥ 1`:
the offset rewinds by one and the player at the old offset is removed. -/
theorem losePlayer_current_eq (s : GameState) (pid : Nat) (p : PlayerState)
    (hget : s.players.get? s.currentPlayerOffset = some p)
    (hid : p.id = pid)
    (hpos : 1 ≤ s.currentPlayerOffset)
    (hoff : s.currentPlayerOffset < s.players.length) :
    losePlayer s pid =
      { s with currentPlayerOffset := s.currentPlayerOffset - 1,
               players := s.players.eraseIdx s.currentPlayerOffset } := by
  unfold losePlayer
  rw [hget]
  simp only [hid, if_pos rfl]
  unfold rewindCurrentPlayer
  have hlast : lastPlayerOffset s.currentPlayerOffset s.players.length =
      s.currentPlayerOffset - 1 :=
    lastPlayerOffset_of_pos _ _ hpos (Nat.le_of_lt hoff)
  simp only [hlast]
  have hnext : nextPlayerOffset (s.currentPlayerOffset - 1) s.players.length =
      s.currentPlayerOffset := by
    unfold nextPlayerOffset
    have : s.currentPlayerOffset - 1 + 1 = s.currentPlayerOffset := by omega
    rw [this, Nat.mod_eq_of_lt hoff]
  simp only [hnext, if_true]

/-- **C4 (counterexample).** The claim says `losePlayer` on the current
player always hands the turn to the player immediately after the removed one.
With roster `[A, B, C]` (ids 0, 1, 2) and `currentPlayerOffset = 0`, removing
the current player A rewinds the offset to `(0 - 1) % 3 = 2`, which is out of
bounds for the two-player roster; the turn advance then lands on C (id 2),
skipping B (id 1), the player immediately after A. -/
theorem c4_counterexample :
    (getCurrentTurnPlayer (advanceCurrentPlayer (losePlayer (mkTestState [pA, pB, pC] 0) 0))).map
        PlayerState.id = some 2 ∧ (some 2 : Option Nat) ≠ some 1 := by
  constructor
  · rfl
  · decide

/-- **C4 (amended).** Provided the removed current player is not at offset 0
(`1 ≤ currentPlayerOffset`), `losePlayer` on the current player followed by
the end-of-turn advance (`Game.doTurn`, src/dog.py line 254) makes the player
who was immediately after the removed one in turn order the current
(next-to-move) player. -/
theorem c4_losePlayer_current_hands_turn_to_next (s : GameState) (pid : Nat) (p : PlayerState)
    (hget : s.players.get? s.currentPlayerOffset = some p)
    (hid : p.id = pid)
    (hpos : 1 ≤ s.currentPlayerOffset)
    (hoff : s.currentPlayerOffset < s.players.length) :
    getCurrentTurnPlayer (advanceCurrentPlayer (losePlayer s pid)) =
      s.players.get? ((s.currentPlayerOffset + 1) % s.players.length) := by
  rw [losePlayer_current_eq s pid p hget hid hpos hoff]
  unfold advanceCurrentPlayer getCurrentTurnPlayer nextPlayerOffset
  simp only
  have hlen : (s.players.eraseIdx s.currentPlayerOffset).length = s.players.length - 1 := by
    rw [List.length_eraseIdx]
    simp [hoff]
  rw [hlen]
  have h1 : s.currentPlayerOffset - 1 + 1 = s.currentPlayerOffset := by omega
  rw [h1]
  by_cases hlt : s.currentPlayerOffset < s.players.length - 1
  · have e1 : s.currentPlayerOffset % (s.players.length - 1) = s.currentPlayerOffset :=
      Nat.mod_eq_of_lt hlt
    have e2 : (s.currentPlayerOffset + 1) % s.players.length = s.currentPlayerOffset + 1 :=
      Nat.mod_eq_of_lt (by omega)
    rw [e1, e2, List.get?_eq_getElem?, List.get?_eq_getElem?, List.getElem?_eraseIdx]
    simp
  · have heq : s.currentPlayerOffset = s.players.length - 1 := by omega
    have e1 : s.currentPlayerOffset % (s.players.length - 1) = 0 := by
      rw [heq, Nat.mod_self]
    have e2 : (s.currentPlayerOffset + 1) % s.players.length = 0 := by
      have : s.currentPlayerOffset + 1 = s.players.length := by omega
      rw [this, Nat.mod_self]
    rw [e1, e2, List.get?_eq_getElem?, List.get?_eq_getElem?, List.getElem?_eraseIdx]
    have : 0 < s.currentPlayerOffset := by omega
    simp [this]

/-- Witness for C4 (amended): roster `[A, B, C]`, offset 1 (B current);
removing B hands the turn to the player after B. -/
theorem c4_witness :
    getCurrentTurnPlayer (advanceCurrentPlayer (losePlayer (mkTestState [pA, pB, pC] 1) 1)) =
      (mkTestState [pA, pB, pC] 1).players.get?
        (((mkTestState [pA, pB, pC] 1).currentPlayerOffset + 1) %
          (mkTestState [pA, pB, pC] 1).players.length) :=
  c4_losePlayer_current_hands_turn_to_next (mkTestState [pA, pB, pC] 1) 1 pB
    (by rfl) (by rfl) (by decide) (by decide)

/-- **C5 (counterexample).** The claim says `losePlayer` always preserves
`0 ≤ currentPlayerOffset < len(activePlayers)` when the roster stays
non-empty.  With roster `[A, B, C]` (ids 0, 1, 2) and offset 0, removing the
current player A leaves offset `(0 - 1) % 3 = 2` over a two-player roster:
the bound `2 < 2` fails. -/
theorem c5_counterexample :
    (losePlayer (mkTestState [pA, pB, pC] 0) 0).currentPlayerOffset = 2 ∧
      (losePlayer (mkTestState [pA, pB, pC] 0) 0).players.length = 2 ∧
      ¬ ((losePlayer (mkTestState [pA, pB, pC] 0) 0).currentPlayerOffset <
          (losePlayer (mkTestState [pA, pB, pC] 0) 0).players.length) := by
  refine ⟨by rfl, by rfl, ?_⟩
  decide

/-- **C5 (amended).** `losePlayer` preserves the offset bound
`currentPlayerOffset < len(players)` in every case except the one the
counterexample exhibits: whenever the removed player, if current, is not at
offset 0, the bound is preserved (in particular for any removed player other
than the current one, at any offset). -/
theorem c5_losePlayer_preserves_offset_bound (s : GameState) (pid : Nat)
    (hoff : s.currentPlayerOffset < s.players.length)
    (hcur : ∀ p, s.players.get? s.currentPlayerOffset = some p → p.id = pid →
      1 ≤ s.currentPlayerOffset) :
    (losePlayer s pid).currentPlayerOffset < (losePlayer s pid).players.length := by
  obtain ⟨q, hq⟩ : ∃ q, s.players.get? s.currentPlayerOffset = some q := by
    rw [List.get?_eq_getElem?]
    exact ⟨_, List.getElem?_eq_getElem hoff⟩
  by_cases hid : q.id = pid
  · have hpos := hcur q hq hid
    rw [losePlayer_current_eq s pid q hq hid hpos hoff]
    simp only [List.length_eraseIdx]
    simp only [hoff, if_pos]
    omega
  · unfold losePlayer
    rw [hq]
    dsimp only
    rw [if_neg hid]
    have hdo : ∀ hdn : List.findIdx (fun p => p.id = pid) s.players < s.players.length,
        List.findIdx (fun p => p.id = pid) s.players ≠ s.currentPlayerOffset := by
      intro hdn heq
      have hpd := @List.findIdx_getElem _ (fun p => decide (p.id = pid)) s.players hdn
      have e3 : s.players.get? (List.findIdx (fun p => decide (p.id = pid)) s.players) =
          some q := by rw [heq]; exact hq
      rw [List.get?_eq_getElem?, List.getElem?_eq_some] at e3
      obtain ⟨h1, h2⟩ := e3
      simp only [h2] at hpd
      exact hid (of_decide_eq_true hpd)
    by_cases hgt : s.currentPlayerOffset > List.findIdx (fun p => p.id = pid) s.players
    · rw [if_pos hgt]
      unfold rewindCurrentPlayer
      simp only [List.length_eraseIdx]
      have hlast : lastPlayerOffset s.currentPlayerOffset s.players.length =
          s.currentPlayerOffset - 1 :=
        lastPlayerOffset_of_pos _ _ (by omega) (Nat.le_of_lt hoff)
      rw [hlast]
      have hdn : List.findIdx (fun p => p.id = pid) s.players < s.players.length := by omega
      simp only [hdn, if_pos]
      omega
    · rw [if_neg hgt]
      simp only [List.length_eraseIdx]
      by_cases hdn : List.findIdx (fun p => p.id = pid) s.players < s.players.length
      · have hne := hdo hdn
        simp only [hdn, if_pos]
        omega
      · simp only [hdn, if_neg, if_false]
        exact hoff

/-- Witness for C5 (amended): roster `[A, B, C]`, offset 1, removing the
current player B preserves the offset bound. -/
theorem c5_witness :
    (losePlayer (mkTestState [pA, pB, pC] 1) 1).currentPlayerOffset <
      (losePlayer (mkTestState [pA, pB, pC] 1) 1).players.length :=
  c5_losePlayer_preserves_offset_bound (mkTestState [pA, pB, pC] 1) 1
    (by decide) (fun p hp hq => by decide)

/-! ### Claims C6-C7: persistent-effect resolution in `Game.doTurn` -/

/-- The persistent effect installed at place `q`, if any
(`Place.persistentEffect`, with the board's function table passed
explicitly). -/
def lookupPE (pe : List (Option PEFn)) (q : Nat) : Option PEFn :=
  (pe.get? q).getD none

/-- `Game.getCurrentPersistentEffectPlaces` (src/dog.py lines 173-174):
iterates over the players, keeping (the id of) each player's current place
when that place carries a persistent effect.  Note the comprehension runs
over players, so a place occupied by several players occurs once per
occupant. -/
def getCurrentPersistentEffectPlaces (pe : List (Option PEFn)) (s : GameState) : List Nat :=
  (s.players.filter (fun p => (lookupPE pe p.currentPlace.toNat).isSome)).map
    (fun p => p.currentPlace.toNat)

/-- The persistent-effect scan of `Game.doTurn` (src/dog.py lines 216-226):
walk the candidate places in order, invoking each place's persistent effect
with the active player's id and roll, stopping at the first invocation that
reports `triggered = true`.  Returns the state, the moved players reported
by the triggering effect (or `[]`), and whether any effect triggered.  A
candidate holding no persistent effect (impossible for candidates produced
by `getCurrentPersistentEffectPlaces`; Python would raise) is skipped. -/
def runPersistentLoop (pe : List (Option PEFn)) : List Nat → Nat → Nat → GameState →
    GameState × List Nat × Bool
  | [], _, _, s => (s, [], false)
  | q :: rest, pid, roll, s =>
    match lookupPE pe q with
    | none => runPersistentLoop pe rest pid roll s
    | some f =>
      let r := f q pid roll s
      if r.2.2 then (r.1, r.2.1, true) else runPersistentLoop pe rest pid roll r.1

/-- The roll-and-resolve fragment of `Game.doTurn` (src/dog.py lines
206-229): roll the die, scan for a triggering persistent effect, and either
adopt that effect's moved players (skipping the ordinary move) or move the
active player by the roll.  Returns the state, the moved players seeding the
cascade of landing effects, whether a persistent effect triggered, and the
roll. -/
def doTurnRollPhase (pe : List (Option PEFn)) (s : GameState) (pid : Nat) :
    GameState × List Nat × Bool × Nat :=
  let roll := (d6 s pid).1
  let s1 := (d6 s pid).2
  let r := runPersistentLoop pe (getCurrentPersistentEffectPlaces pe s1) pid roll s1
  if r.2.2 then (r.1, r.2.1, true, roll)
  else (move r.1 pid roll, [pid], false, roll)

/-- Test persistent effect that always triggers, reporting the testing
player as moved and leaving the state unchanged. -/
def peAlways : PEFn := fun _ pid _ s => (s, [pid], true)

/-- Test persistent effect that never triggers and leaves the state
unchanged. -/
def peNever : PEFn := fun _ _ _ s => (s, [], false)

/-- Test persistent effect that never triggers but marks each invocation by
appending a sentinel event, making invocation counts observable. -/
def peMark : PEFn := fun _ _ _ s =>
  ({ s with events := s.events ++ [Event.turnEv 999] }, [], false)

/-- **C6.** At most one persistent effect triggers per turn step: (1) the
scan stops at the first candidate whose effect reports `triggered = true`,
with the result independent of all later candidates; (2) when an effect
triggers, the moved-player set seeding the cascade is exactly what that
effect returned and the active player performs no ordinary move; (3) when no
effect triggers, the active player moves by the rolled amount. -/
theorem c6_at_most_one_persistent_effect :
    (∀ (pe : List (Option PEFn)) (q : Nat) (rest : List Nat) (pid roll : Nat)
        (s s' : GameState) (f : PEFn) (mv : List Nat),
      lookupPE pe q = some f → f q pid roll s = (s', mv, true) →
      runPersistentLoop pe (q :: rest) pid roll s = (s', mv, true)) ∧
    (∀ (pe : List (Option PEFn)) (s : GameState) (pid : Nat) (s' : GameState) (mv : List Nat),
      runPersistentLoop pe (getCurrentPersistentEffectPlaces pe (d6 s pid).2) pid
          (d6 s pid).1 (d6 s pid).2 = (s', mv, true) →
      doTurnRollPhase pe s pid = (s', mv, true, (d6 s pid).1)) ∧
    (∀ (pe : List (Option PEFn)) (s : GameState) (pid : Nat) (s' : GameState) (mv : List Nat),
      runPersistentLoop pe (getCurrentPersistentEffectPlaces pe (d6 s pid).2) pid
          (d6 s pid).1 (d6 s pid).2 = (s', mv, false) →
      doTurnRollPhase pe s pid = (move s' pid (d6 s pid).1, [pid], false, (d6 s pid).1)) := by
  refine ⟨?_, ?_, ?_⟩
  · intro pe q rest pid roll s s' f mv hf hr
    unfold runPersistentLoop
    rw [hf]
    simp [hr]
  · intro pe s pid s' mv h
    unfold doTurnRollPhase
    dsimp only
    rw [h]
    rfl
  · intro pe s pid s' mv h
    unfold doTurnRollPhase
    dsimp only
    rw [h]
    rfl

/-- Witness for C6: a one-player state; an always-triggering effect stops
the scan and suppresses the ordinary move, a never-triggering table lets the
active player move by the roll. -/
theorem c6_witness :
    runPersistentLoop [some peAlways] (0 :: []) 0 3 (mkTestState [pA] 0) =
        (mkTestState [pA] 0, [0], true) ∧
    doTurnRollPhase [some peAlways] (mkTestState [pA] 0) 0 =
        ((d6 (mkTestState [pA] 0) 0).2, [0], true, (d6 (mkTestState [pA] 0) 0).1) ∧
    doTurnRollPhase [some peNever] (mkTestState [pA] 0) 0 =
        (move (d6 (mkTestState [pA] 0) 0).2 0 (d6 (mkTestState [pA] 0) 0).1, [0], false,
          (d6 (mkTestState [pA] 0) 0).1) :=
  ⟨c6_at_most_one_persistent_effect.1 [some peAlways] 0 [] 0 3
      (mkTestState [pA] 0) (mkTestState [pA] 0) peAlways [0] rfl rfl,
    c6_at_most_one_persistent_effect.2.1 [some peAlways] (mkTestState [pA] 0) 0
      (d6 (mkTestState [pA] 0) 0).2 [0] rfl,
    c6_at_most_one_persistent_effect.2.2 [some peNever] (mkTestState [pA] 0) 0
      (d6 (mkTestState [pA] 0) 0).2 [] rfl⟩

/-- **C7 (counterexample).** The claim says each occupied persistent-effect
place has its effect invoked exactly once per turn (once per occupied place,
not once per occupying player).  With two players both on place 0 and a
marking, never-triggering persistent effect there, the candidate list
contains place 0 twice and the scan invokes the effect twice (two sentinel
events), not once. -/
theorem c7_counterexample :
    getCurrentPersistentEffectPlaces [some peMark] (mkTestState [pA, pB] 0) = [0, 0] ∧
      (runPersistentLoop [some peMark]
          (getCurrentPersistentEffectPlaces [some peMark] (mkTestState [pA, pB] 0)) 0 3
          (mkTestState [pA, pB] 0)).1.events = [Event.turnEv 999, Event.turnEv 999] ∧
      ([Event.turnEv 999, Event.turnEv 999] : List Event).length ≠ 1 := by
  refine ⟨by rfl, by rfl, by decide⟩

/-- Each occurrence of a persistent-effect place in the candidate list
corresponds to one occupying player: the multiplicity of place `q` equals
the number of players currently on `q`. -/
theorem candidates_count_eq_occupants (pe : List (Option PEFn)) (l : List PlayerState) (q : Nat)
    (hpe : (lookupPE pe q).isSome = true) :
    ((l.filter (fun p => (lookupPE pe p.currentPlace.toNat).isSome)).map
        (fun p => p.currentPlace.toNat)).count q =
      (l.filter (fun p => p.currentPlace.toNat = q)).length := by
  induction l with
  | nil => rfl
  | cons p ps ih =>
    by_cases hc : p.currentPlace.toNat = q
    · have hp : (lookupPE pe p.currentPlace.toNat).isSome = true := by rw [hc]; exact hpe
      simp [List.filter_cons, hp, hpe, hc, List.count_cons, ih]
    · by_cases hp : (lookupPE pe p.currentPlace.toNat).isSome = true
      · simp [List.filter_cons, hp, hc, List.count_cons, ih]
      · simp [List.filter_cons, hp, hc, ih]

/-- **C7 (amended).** On a turn in which no persistent effect triggers, each
place hosting at least one player and carrying a persistent effect has its
effect invoked once per occupying player (k times when k players stand on
it), not once per place: (1) the candidate list built by
`getCurrentPersistentEffectPlaces` lists each persistent-effect place once
per occupant; (2) the scan invokes each non-triggering candidate exactly
once and proceeds to the remaining candidates with the state that invocation
returned. -/
theorem c7_persistent_invoked_once_per_occupant :
    (∀ (pe : List (Option PEFn)) (s : GameState) (q : Nat),
      (lookupPE pe q).isSome = true →
      (getCurrentPersistentEffectPlaces pe s).count q =
        (s.players.filter (fun p => p.currentPlace.toNat = q)).length) ∧
    (∀ (pe : List (Option PEFn)) (q : Nat) (rest : List Nat) (pid roll : Nat)
        (s : GameState) (f : PEFn),
      lookupPE pe q = some f → (f q pid roll s).2.2 = false →
      runPersistentLoop pe (q :: rest) pid roll s =
        runPersistentLoop pe rest pid roll (f q pid roll s).1) := by
  constructor
  · intro pe s q hpe
    exact candidates_count_eq_occupants pe s.players q hpe
  · intro pe q rest pid roll s f hf hr
    conv_lhs => rw [runPersistentLoop]
    rw [hf]
    simp [hr]

/-- Witness for C7 (amended): both players of a two-player state stand on
the marking persistent-effect place 0: its multiplicity among the candidates
is 2, and a non-triggering invocation steps to the rest of the scan. -/
theorem c7_witness :
    (getCurrentPersistentEffectPlaces [some peMark] (mkTestState [pA, pB] 0)).count 0 =
        ((mkTestState [pA, pB] 0).players.filter
          (fun p => p.currentPlace.toNat = 0)).length ∧
      runPersistentLoop [some peMark] (0 :: []) 0 3 (mkTestState [pA, pB] 0) =
        runPersistentLoop [some peMark] [] 0 3
          ((peMark 0 0 3 (mkTestState [pA, pB] 0)).1) :=
  ⟨c7_persistent_invoked_once_per_occupant.1 [some peMark] (mkTestState [pA, pB] 0) 0 rfl,
    c7_persistent_invoked_once_per_occupant.2 [some peMark] 0 [] 0 3
      (mkTestState [pA, pB] 0) peMark rfl rfl⟩

/-! ### Claim C8: loss records in the event stream -/

/-- The records the `__main__` driver emits after the turn loop ends
(src/dog.py lines 510-521): `winner`/`everyone lost` according to the
terminal result, then `total turns`, then `player stats`.  The driver emits
no other end-of-game record. -/
def mainFinalEvents (result : Option Nat) (n : Nat) : List Event :=
  (match result with
   | some pid => [Event.winnerEv pid]
   | none => [Event.everyoneLostEv]) ++ [Event.totalTurnsEv n, Event.playerStatsEv]

/-- Is this record a player-elimination record or the final losers
summary? -/
def isLossRecord : Event → Bool
  | Event.hasLost _ => true
  | Event.losersEv _ => true
  | _ => false

/-- **C8.** The claim says the stream carries a `has lost` record for every
elimination and one final `losers:` record.  The code emits neither:
`Game.losePlayer` (src/dog.py lines 149-165) logs nothing at all, and the
driver epilogue (lines 510-521) logs only `winner`/`everyone lost`,
`total turns` and `player stats` — while the repository's own parser
(src/dogparser.py lines 127-146, 225, 338-339) requires both records and
raises `ParsingException` when the `losers:` line is absent. -/
theorem c8_no_loss_records_emitted :
    (∀ (s : GameState) (pid : Nat), (losePlayer s pid).events = s.events) ∧
      (∀ (result : Option Nat) (n : Nat),
        (mainFinalEvents result n).all (fun e => !(isLossRecord e)) = true) := by
  constructor
  · intro s pid
    unfold losePlayer
    cases hq : s.players.get? s.currentPlayerOffset with
    | none => rfl
    | some q =>
      dsimp only
      split
      · rfl
      · dsimp only
        split <;> rfl
  · intro result n
    cases result <;> rfl

/-! ### Claim C10: the effect catalogue and the shipped board -/

/-- `Game.getPlayers` (src/dog.py lines 167-168): the ids of the active
roster, in order. -/
def getPlayers (s : GameState) : List Nat :=
  s.players.map (fun p => p.id)

/-- `Place.getPlayersInPlace` (src/dog.py lines 99-100): the ids of the
players whose current place is `placeId`, in roster order. -/
def getPlayersInPlace (s : GameState) (placeId : Nat) : List Nat :=
  (s.players.filter (fun p => p.currentPlace = (placeId : Int))).map (fun p => p.id)

/-- `ifAnyoneRollsNFactory` (src/dog.py lines 303-318): if the roll equals
`n`, every active player (snapshot taken before moving) moves back `n` and
the effect triggers with that roster as the moved players. -/
def ifAnyoneRollsNFactory (n : Nat) : PEFn := fun _ _ roll s =>
  if roll = n then
    let players := getPlayers s
    (players.foldl (fun t p => move t p (-(n : Int))) s, players, true)
  else (s, [], false)

/-- `effect_4` (src/dog.py lines 321-324). -/
def effect_4 : EffectFn := fun _ pid s => (move s pid (-2), EffectResult.moved [pid])

/-- `effect_6_persistent` (src/dog.py line 326). -/
def effect_6_persistent : PEFn := ifAnyoneRollsNFactory 2

/-- `effect_9` (src/dog.py lines 328-337): on heads, roll again and move by
the result. -/
def effect_9 : EffectFn := fun _ pid s =>
  let c := coin s pid
  if c.1 then
    let r := d6 c.2 pid
    (move r.2 pid (r.1 : Int), EffectResult.moved [pid])
  else (c.2, EffectResult.moved [])

/-- `effect_13` (src/dog.py lines 339-342): one turn to skip. -/
def effect_13 : EffectFn := fun _ pid s =>
  (updatePlayer s pid (fun p => { p with turnsToSkip := p.turnsToSkip + 1 }),
    EffectResult.moved [])

/-- `effect_15_persistent` (src/dog.py lines 344-351): on a roll of 1, the
players standing on this place move forward 1. -/
def effect_15_persistent : PEFn := fun placeId _ roll s =>
  if roll = 1 then
    let players := getPlayersInPlace s placeId
    (players.foldl (fun t p => move t p 1) s, players, true)
  else (s, [], false)

/-- `effect_16_persistent` (src/dog.py line 353). -/
def effect_16_persistent : PEFn := ifAnyoneRollsNFactory 3

/-- `effect_18` (src/dog.py lines 355-358). -/
def effect_18 : EffectFn := fun _ pid s => (move s pid 2, EffectResult.moved [pid])

/-- `effect_20_persistent` (src/dog.py lines 360-365): triggers when the
testing player stands on this place, moving them back by their roll. -/
def effect_20_persistent : PEFn := fun placeId pid roll s =>
  match s.players.find? (fun p => p.id = pid) with
  | none => (s, [], false)
  | some p =>
    if p.currentPlace = (placeId : Int) then (move s pid (-(roll : Int)), [pid], true)
    else (s, [], false)

/-- `effect_23` (src/dog.py lines 367-370). -/
def effect_23 : EffectFn := fun _ pid s => (move s pid 2, EffectResult.moved [pid])

/-- `effect_25` (src/dog.py lines 372-375). -/
def effect_25 : EffectFn := fun _ pid s => (move s pid (-5), EffectResult.moved [pid])

/-- `effect_28_persistent` (src/dog.py line 377). -/
def effect_28_persistent : PEFn := ifAnyoneRollsNFactory 5

/-- `effect_31` (src/dog.py lines 379-388): on heads, move back 2. -/
def effect_31 : EffectFn := fun _ pid s =>
  let c := coin s pid
  if c.1 then (move c.2 pid (-2), EffectResult.moved [pid])
  else (c.2, EffectResult.moved [])

/-- `effect_33` (src/dog.py lines 390-399): roll three dice; on three 6s
every other player moves back 18. -/
def effect_33 : EffectFn := fun _ pid s =>
  let r1 := d6 s pid
  let r2 := d6 r1.2 pid
  let r3 := d6 r2.2 pid
  if r1.1 = 6 ∧ r2.1 = 6 ∧ r3.1 = 6 then
    let others := (r3.2.players.filter (fun p => p.id ≠ pid)).map (fun p => p.id)
    (others.foldl (fun t p => move t p (-18)) r3.2, EffectResult.moved others)
  else (r3.2, EffectResult.moved [])

/-- `effect_35_persistent` (src/dog.py line 401). -/
def effect_35_persistent : PEFn := ifAnyoneRollsNFactory 4

/-- `effect_37_persistent` (src/dog.py line 403). -/
def effect_37_persistent : PEFn := ifAnyoneRollsNFactory 6

/-- `effect_40` (src/dog.py lines 405-411): an even roll eliminates the
landing player. -/
def effect_40 : EffectFn := fun _ pid s =>
  let r := d6 s pid
  if r.1 % 2 = 0 then (losePlayer r.2 pid, EffectResult.moved [])
  else (r.2, EffectResult.moved [])

/-- `effect_44` (src/dog.py lines 413-415). -/
def effect_44 : EffectFn := fun _ pid s => (move s pid 2, EffectResult.moved [pid])

/-- `effect_45` (src/dog.py lines 417-419). -/
def effect_45 : EffectFn := fun _ pid s => (move s pid 2, EffectResult.moved [pid])

/-- `effect_46` (src/dog.py lines 421-423). -/
def effect_46 : EffectFn := fun _ pid s => (move s pid (-1), EffectResult.moved [pid])

/-- `effect_47` (src/dog.py lines 425-427). -/
def effect_47 : EffectFn := fun _ pid s => (move s pid (-4), EffectResult.moved [pid])

/-- The `otherRolls` comprehension of `effect_48` (src/dog.py line 430):
every other active player rolls, in roster order; returns the rolls and the
resulting state. -/
def rollOthers (s : GameState) (pid : Nat) : List Nat × GameState :=
  ((s.players.filter (fun p => p.id ≠ pid)).map (fun p => p.id)).foldl
    (fun t q => let r := d6 t.2 q; (t.1 ++ [r.1], r.2)) ([], s)

/-- `effect_48` (src/dog.py lines 429-437): every other player rolls, then
the landing player rolls; if any other roll is at least the landing
player's, the landing player moves back 20; otherwise the landing player is
returned as the winner.  The early-`return` loop of the source acts at the
first (and by extension any) other roll ≥ the player's, which is `List.any`. -/
def effect_48 : EffectFn := fun _ pid s =>
  let o := rollOthers s pid
  let my := d6 o.2 pid
  if o.1.any (fun r => my.1 ≤ r) then (move my.2 pid (-20), EffectResult.moved [pid])
  else (my.2, EffectResult.winner pid)

/-- `BLANK` (src/dog.py line 441). -/
def BLANK : Option EffectFn × Option PEFn × Option String := (none, none, none)

/-- `BOARD` (src/dog.py lines 442-492): the shipped 49-place board as the
ordered list of (landing effect, persistent effect, message) triples. -/
def BOARD : List (Option EffectFn × Option PEFn × Option String) := [
  BLANK,
  BLANK,
  (none, none, some "pretty good"),
  BLANK,
  (some effect_4, none, some "Go back 2 spaces"),
  BLANK,
  (none, some effect_6_persistent, some "If anyone rolls a 2, everyone goes back two spaces"),
  (none, none, some "dog_0"),
  (none, none, some "woof"),
  (some effect_9, none, some "Roll again but only if you feel like it"),
  BLANK,
  (none, none, some "sometimes I eat cheese"),
  BLANK,
  (some effect_13, none, none),
  BLANK,
  (none, some effect_15_persistent, some "If anyone rolls a 1, go forward 1 space"),
  (none, some effect_16_persistent, some "If anyone rolls a 3, everyone goes back three spaces"),
  (none, none, some "dog_1"),
  (some effect_18, none, some "Go forward two spaces"),
  (none, none, some "neat"),
  (none, some effect_20_persistent, some "When you roll to move, go back that many spaces"),
  BLANK,
  (none, none, some "dog_2"),
  (some effect_23, none, some "Go forward two spaces"),
  BLANK,
  (some effect_25, none, some "Go back five spaces"),
  BLANK,
  (none, none, some "yes"),
  (none, some effect_28_persistent, some "If anyone rolls a 5, everyone goes back five spaces"),
  (none, none, some "dog_3"),
  BLANK,
  (some effect_31, none, some "Go back two spaces if it tickles your fancy"),
  BLANK,
  (some effect_33, none, some "Roll three times. If you roll three 6s, everyone else moves back 18 spaces. PRAISE SATAN"),
  (none, none, some "sometimes"),
  (none, some effect_35_persistent, some "If anyone rolls a 4, everyone moves back 4 spaces"),
  BLANK,
  (none, some effect_37_persistent, some "If anyone rolls a 6, everyone moves back six spaces"),
  (none, none, some "dog_4"),
  BLANK,
  (some effect_40, none, some "Roll a die. If you roll an even number, you lose"),
  BLANK,
  BLANK,
  (none, none, some "no :("),
  (some effect_44, none, some "Go forward 2 spaces"),
  (some effect_45, none, some "Go forward 2 spaces"),
  (some effect_46, none, some "Go back 1 spaces"),
  (some effect_47, none, some "Go back 4 spaces"),
  (some effect_48, none, some "On your turn, everyone rolls a die. If you have the highest number, you win. If you tie for the highest or someone's roll beats yours, go back twenty spaces")
]

/-- A landing effect that never signals a win, whatever the place, player
and state. -/
def effectNeverWins (f : EffectFn) : Prop :=
  ∀ (k pid : Nat) (s : GameState) (w : Nat), (f k pid s).2 ≠ EffectResult.winner w

theorem effect_4_nowin : effectNeverWins effect_4 := by
  intro k pid s w
  simp [effect_4]

theorem effect_9_nowin : effectNeverWins effect_9 := by
  intro k pid s w
  unfold effect_9
  dsimp only
  split <;> simp

theorem effect_13_nowin : effectNeverWins effect_13 := by
  intro k pid s w
  simp [effect_13]

theorem effect_18_nowin : effectNeverWins effect_18 := by
  intro k pid s w
  simp [effect_18]

theorem effect_23_nowin : effectNeverWins effect_23 := by
  intro k pid s w
  simp [effect_23]

theorem effect_25_nowin : effectNeverWins effect_25 := by
  intro k pid s w
  simp [effect_25]

theorem effect_31_nowin : effectNeverWins effect_31 := by
  intro k pid s w
  unfold effect_31
  dsimp only
  split <;> simp

theorem effect_33_nowin : effectNeverWins effect_33 := by
  intro k pid s w
  unfold effect_33
  dsimp only
  split <;> simp

theorem effect_40_nowin : effectNeverWins effect_40 := by
  intro k pid s w
  unfold effect_40
  dsimp only
  split <;> simp

theorem effect_44_nowin : effectNeverWins effect_44 := by
  intro k pid s w
  simp [effect_44]

theorem effect_45_nowin : effectNeverWins effect_45 := by
  intro k pid s w
  simp [effect_45]

theorem effect_46_nowin : effectNeverWins effect_46 := by
  intro k pid s w
  simp [effect_46]

theorem effect_47_nowin : effectNeverWins effect_47 := by
  intro k pid s w
  simp [effect_47]

/-- `effect_48` returns a winner exactly when the landing player's roll is
strictly greater than every other active player's roll, and the winner is
the landing player. -/
theorem effect_48_winner_iff (k pid : Nat) (s : GameState) (w : Nat) :
    (effect_48 k pid s).2 = EffectResult.winner w ↔
      w = pid ∧ ∀ r ∈ (rollOthers s pid).1, r < (d6 (rollOthers s pid).2 pid).1 := by
  unfold effect_48
  dsimp only
  by_cases h : (rollOthers s pid).1.any
      (fun r => (d6 (rollOthers s pid).2 pid).1 ≤ r) = true
  · rw [if_pos h]
    rw [List.any_eq_true] at h
    obtain ⟨r, hr, hle⟩ := h
    have hle' := of_decide_eq_true hle
    constructor
    · intro hh
      simp at hh
    · rintro ⟨_, hall⟩
      exact absurd (hall r hr) (Nat.not_lt.mpr hle')
  · rw [if_neg h]
    have hall : ∀ r ∈ (rollOthers s pid).1, r < (d6 (rollOthers s pid).2 pid).1 := by
      intro r hr
      by_contra hc
      exact h (List.any_eq_true.mpr ⟨r, hr, decide_eq_true (Nat.not_lt.mp hc)⟩)
    constructor
    · intro hh
      injection hh with h1
      exact ⟨h1.symm, hall⟩
    · rintro ⟨rfl, _⟩
      rfl

/-- **C10.** On the shipped board, a win can only be signalled by place 48's
effect: (1) `effect_48` returns the landing player as winner exactly when
that player's roll is strictly greater than every other active player's
roll; (2) with no other active players it wins unconditionally; (3) the
board's landing effects sit exactly at indices 4, 9, 13, 18, 23, 25, 31,
33, 40, 44, 45, 46, 47 and 48; (4) index 48 holds `effect_48` and each of
the other thirteen indices holds the named catalogue effect; (5) none of
those thirteen effects ever signals a win. -/
theorem c10_win_only_via_place_48 :
    (∀ (k pid : Nat) (s : GameState) (w : Nat),
      (effect_48 k pid s).2 = EffectResult.winner w ↔
        w = pid ∧ ∀ r ∈ (rollOthers s pid).1, r < (d6 (rollOthers s pid).2 pid).1) ∧
    (∀ (k pid : Nat) (s : GameState),
      s.players.filter (fun p => p.id ≠ pid) = [] →
      (effect_48 k pid s).2 = EffectResult.winner pid) ∧
    BOARD.map (fun e => e.1.isSome) =
      [false, false, false, false, true, false, false, false, false, true, false, false,
       false, true, false, false, false, false, true, false, false, false, false, true,
       false, true, false, false, false, false, false, true, false, true, false, false,
       false, false, false, false, true, false, false, false, true, true, true, true,
       true] ∧
    BOARD.get? 48 = some (some effect_48, none, some "On your turn, everyone rolls a die. If you have the highest number, you win. If you tie for the highest or someone's roll beats yours, go back twenty spaces") ∧
    BOARD.get? 4 = some (some effect_4, none, some "Go back 2 spaces") ∧
    BOARD.get? 9 = some (some effect_9, none, some "Roll again but only if you feel like it") ∧
    BOARD.get? 13 = some (some effect_13, none, none) ∧
    BOARD.get? 18 = some (some effect_18, none, some "Go forward two spaces") ∧
    BOARD.get? 23 = some (some effect_23, none, some "Go forward two spaces") ∧
    BOARD.get? 25 = some (some effect_25, none, some "Go back five spaces") ∧
    BOARD.get? 31 = some (some effect_31, none, some "Go back two spaces if it tickles your fancy") ∧
    BOARD.get? 33 = some (some effect_33, none, some "Roll three times. If you roll three 6s, everyone else moves back 18 spaces. PRAISE SATAN") ∧
    BOARD.get? 40 = some (some effect_40, none, some "Roll a die. If you roll an even number, you lose") ∧
    BOARD.get? 44 = some (some effect_44, none, some "Go forward 2 spaces") ∧
    BOARD.get? 45 = some (some effect_45, none, some "Go forward 2 spaces") ∧
    BOARD.get? 46 = some (some effect_46, none, some "Go back 1 spaces") ∧
    BOARD.get? 47 = some (some effect_47, none, some "Go back 4 spaces") ∧
    effectNeverWins effect_4 ∧ effectNeverWins effect_9 ∧ effectNeverWins effect_13 ∧
    effectNeverWins effect_18 ∧ effectNeverWins effect_23 ∧ effectNeverWins effect_25 ∧
    effectNeverWins effect_31 ∧ effectNeverWins effect_33 ∧ effectNeverWins effect_40 ∧
    effectNeverWins effect_44 ∧ effectNeverWins effect_45 ∧ effectNeverWins effect_46 ∧
    effectNeverWins effect_47 := by
  refine ⟨effect_48_winner_iff, ?_, by rfl, by rfl, by rfl, by rfl, by rfl, by rfl,
    by rfl, by rfl, by rfl, by rfl, by rfl, by rfl, by rfl, by rfl, by rfl,
    effect_4_nowin, effect_9_nowin, effect_13_nowin, effect_18_nowin, effect_23_nowin,
    effect_25_nowin, effect_31_nowin, effect_33_nowin, effect_40_nowin, effect_44_nowin,
    effect_45_nowin, effect_46_nowin, effect_47_nowin⟩
  intro k pid s hemp
  rw [effect_48_winner_iff]
  have ho : rollOthers s pid = ([], s) := by
    unfold rollOthers
    rw [hemp]
    rfl
  rw [ho]
  exact ⟨rfl, by intro r hr; simp at hr⟩

/-- Witness for C10: a lone player on the board; with no other active
players, landing on place 48 signals that player as the winner. -/
theorem c10_witness :
    ((effect_48 48 0 (mkTestState [pA] 0)).2 = EffectResult.winner 0 ↔
        (0 = 0 ∧ ∀ r ∈ (rollOthers (mkTestState [pA] 0) 0).1,
          r < (d6 (rollOthers (mkTestState [pA] 0) 0).2 0).1)) ∧
      (effect_48 48 0 (mkTestState [pA] 0)).2 = EffectResult.winner 0 :=
  ⟨c10_win_only_via_place_48.1 48 0 (mkTestState [pA] 0) 0,
    c10_win_only_via_place_48.2.1 48 0 (mkTestState [pA] 0) rfl⟩
